import Mathlib

/-!
A shallow embedding of `abh/certmagic-storage-tests` (`suite.go`): a
conformance test suite for `certmagic.Storage` implementations.

The storage under test is external to the repository, so it is modelled as a
record of operations over an abstract state type `σ`; every operation returns
its result together with the (possibly mutated) state, mirroring Go methods on
a mutable receiver.  The suite's test functions (`testLocker`,
`testStorageSingleKey`, `testStorageDir`, `Run`) are translated line by line
from `suite.go`; `t.Fatalf` is modelled by an error verdict carrying the
static part of the format string.
-/

namespace CertmagicStorageTests

/-- Byte sequences (`[]byte` contents). -/
abbrev Bytes := List Nat

/-- `certmagic.KeyInfo`, restricted to the fields the suite inspects
(`Key` and `IsTerminal`; `Size`/`Modified` are never examined). -/
structure KeyInfo where
  key : String
  isTerminal : Bool
deriving DecidableEq, Repr

/-- The `certmagic.Storage` interface.  Each method takes the current backend
state and returns its result paired with the new state.  `store` takes an
`Option Bytes` so that a Go `nil` slice (`none`) is distinguished from an
empty slice (`some []`), as in `suite.go` lines 130 and 134. -/
structure Storage (σ : Type) where
  existsKey : σ → String → Bool × σ
  store : σ → String → Option Bytes → Option String × σ
  load : σ → String → Except String Bytes × σ
  delete : σ → String → Option String × σ
  stat : σ → String → Except String KeyInfo × σ
  list : σ → String → Bool → Except String (List String) × σ
  lock : σ → String → Option String × σ
  unlock : σ → String → Option String × σ

/-- `KeyPrefix` from `suite.go` line 37: prepended to all tested keys. -/
def KeyPrefix : String := "__test__key__"

/-- The suite's `Rng` field (`interface{ Int() int }`) is modelled as the
stream of its successive `Int()` results; call sites index into it. -/
abbrev RngStream := Nat → Nat

/-- `randKey` (`suite.go` line 239): `KeyPrefix + strconv.Itoa(ts.Rng.Int())`,
where `i` is the index of this `Int()` call in the run. -/
def randKey (rng : RngStream) (i : Nat) : String := KeyPrefix ++ toString (rng i)

/-- The key of `testLocker`'s sequential check (`suite.go` line 70):
`strconv.Itoa(ts.Rng.Int())` — note: no `KeyPrefix`. -/
def lockerFirstKey (rng : RngStream) : String := toString (rng 0)

/-- `true` iff the Except value is `.ok`. -/
def isOkE {ε α : Type} : Except ε α → Bool
  | .ok _ => true
  | .error _ => false

/-- `[]byte(s)`: the bytes of a string (code points; the suite only uses
ASCII keys, where this agrees with UTF-8 bytes). -/
def strBytes (s : String) : Bytes := s.data.map Char.toNat

/-- `strings.HasPrefix`-style check, via the underlying character lists. -/
def strHasPrefix (p s : String) : Bool := p.data.isPrefixOf s.data

/-- Lexicographic ≤ on character lists, by code point (for ASCII keys this is
exactly Go's byte-wise string order). -/
def charListLe : List Char → List Char → Bool
  | [], _ => true
  | _ :: _, [] => false
  | a :: as, b :: bs =>
    if a.toNat = b.toNat then charListLe as bs
    else decide (a.toNat < b.toNat)

/-- Lexicographic ≤ on strings (the order used by `sort.Strings`). -/
def strLe (a b : String) : Bool := charListLe a.data b.data

/-- Insert into a `strLe`-sorted list of strings (helper for `sortStrings`). -/
def insertStr (x : String) : List String → List String
  | [] => [x]
  | y :: ys => if strLe x y then x :: y :: ys else y :: insertStr x ys

/-- `sort.Strings`: lexicographic insertion sort (the suite only compares the
sorted list against a fully sorted expected list, so any comparison sort is
an adequate model). -/
def sortStrings : List String → List String
  | [] => []
  | x :: xs => insertStr x (sortStrings xs)

/-- `testLocker` lines 71–79: `Unlock` on a never-locked key must fail, then
`Lock` and `Unlock` must both succeed. -/
def testLockerSeq {σ : Type} (sto : Storage σ) (s : σ) (key : String) :
    Option String × σ :=
  let u1 := sto.unlock s key
  match u1.1 with
  | none => (some "Storage successfully unlocks unlocked key", u1.2)
  | some _ =>
    let l1 := sto.lock u1.2 key
    match l1.1 with
    | some e => (some ("Storage fails to lock key: " ++ e), l1.2)
    | none =>
      let u2 := sto.unlock l1.2 key
      match u2.1 with
      | some e => (some ("Storage fails to unlock locked key: " ++ e), u2.2)
      | none => (none, u2.2)

/-- Number of iterations of each stress worker (`for i := 0; i < 5` at
`suite.go` line 82). -/
def lockerIters : Nat := 5

/-- Number of stress keys (`for i := 0; i < 5` at `suite.go` line 94). -/
def lockerStressKeyCount : Nat := 5

/-- Number of workers spawned per stress key (`for j := 0; j < 2` at
`suite.go` line 96). -/
def lockerWorkersPerKey : Nat := 2

/-- One stress worker (`test` closure, `suite.go` lines 81–92), executed
against the storage state: on each of the `n` iterations, a `Lock` error is
treated as a timeout and skipped (`continue`); after a successful `Lock`, an
`Unlock` error is a fatal failure. -/
def lockerWorkerExec {σ : Type} (sto : Storage σ) (key : String) :
    Nat → σ → Option String × σ
  | 0, s => (none, s)
  | n + 1, s =>
    let l := sto.lock s key
    match l.1 with
    | some _ => lockerWorkerExec sto key n l.2
    | none =>
      let u := sto.unlock l.2 key
      match u.1 with
      | some e => (some ("Storage.Unlock failed: " ++ e), u.2)
      | none => lockerWorkerExec sto key n u.2

/-- The `test` closure run over a script of per-iteration observations: entry
`(lockOk, unlockOk)` records whether that iteration's `Lock` call succeeded
and, when it did, whether the following `Unlock` call succeeded.  Under
concurrency the script is whatever results the interleaving handed this
worker; the worker's verdict is a function of its own script alone. -/
def lockerWorkerScript : List (Bool × Bool) → Option String
  | [] => none
  | (lockOk, unlockOk) :: rest =>
    if lockOk then
      if unlockOk then lockerWorkerScript rest
      else some "Storage.Unlock failed"
    else lockerWorkerScript rest

/-- A full worker run: exactly `lockerIters` iterations of the script. -/
def lockerWorkerRun (script : Nat → Bool × Bool) : Option String :=
  lockerWorkerScript ((List.range lockerIters).map script)

/-- The stress keys (`suite.go` line 95): `randKey()` results at stream
positions `start`, `start+1`, …; in `Run` the stream positions are 1–5,
position 0 having been consumed at line 70. -/
def lockerStressKeys (rng : RngStream) (start : Nat) : List String :=
  (List.range lockerStressKeyCount).map fun i => randKey rng (start + i)

/-- Sequential execution of the two workers of one stress key (one admissible
schedule; worker verdicts are combined left to right, mirroring that any
worker's `Fatalf` fails the test). -/
def stressKeyExec {σ : Type} (sto : Storage σ) (key : String)
    (acc : Option String × σ) : Option String × σ :=
  let r1 := lockerWorkerExec sto key lockerIters acc.2
  let r2 := lockerWorkerExec sto key lockerIters r1.2
  ((acc.1 <|> r1.1) <|> r2.1, r2.2)

/-- The stress phase (`suite.go` lines 93–104) under the sequential schedule:
five keys, two workers each. -/
def lockerStressExec {σ : Type} (sto : Storage σ) (rng : RngStream)
    (start : Nat) (s : σ) : Option String × σ :=
  (List.range lockerStressKeyCount).foldl
    (fun acc i => stressKeyExec sto (randKey rng (start + i)) acc) (none, s)

/-- `testLocker` (`suite.go` lines 69–105): the sequential check on the
unprefixed key, then (if it passed — `Fatalf` aborts the test function) the
stress phase on stream positions 1–5. -/
def testLockerExec {σ : Type} (sto : Storage σ) (rng : RngStream) (s : σ) :
    Option String × σ :=
  let r := testLockerSeq sto s (lockerFirstKey rng)
  match r.1 with
  | some e => (some e, r.2)
  | none => lockerStressExec sto rng 1 r.2

/-- The body of `testStorageSingleKey` (`suite.go` lines 114–159): the
assertion sequence between the `Lock` and the deferred `Unlock`.  An error
value carries the `Fatalf` message and the state at the point of failure. -/
def singleKeyBody {σ : Type} (sto : Storage σ) (s : σ) (key : String) :
    Except (String × σ) σ :=
  let e1 := sto.existsKey s key
  if e1.1 then .error ("Un-stored key exists", e1.2) else
  let l1 := sto.load e1.2 key
  match l1.1 with
  | .ok _ => .error ("Load should fail: the key was not stored", l1.2)
  | .error _ =>
  let t1 := sto.stat l1.2 key
  match t1.1 with
  | .ok _ => .error ("Stat should fail: the key does not exist", t1.2)
  | .error _ =>
  let w0 := sto.store t1.2 "" (some [])
  match w0.1 with
  | none => .error ("Store with empty key should fail", w0.2)
  | some _ =>
  let w1 := sto.store w0.2 key none
  match w1.1 with
  | some e => .error ("Store with nil value failed: " ++ e, w1.2)
  | none =>
  let w2 := sto.store w1.2 key (some [])
  match w2.1 with
  | some e => .error ("Store with empty value failed: " ++ e, w2.2)
  | none =>
  let w3 := sto.store w2.2 key (some (strBytes key))
  match w3.1 with
  | some e => .error ("Store failed: " ++ e, w3.2)
  | none =>
  let e2 := sto.existsKey w3.2 key
  if !e2.1 then .error ("Stored key does not exist", e2.2) else
  let l2 := sto.load e2.2 key
  match l2.1 with
  | .error e => .error ("Load failed: " ++ e, l2.2)
  | .ok v =>
  if v ≠ strBytes key then .error ("Load failed: loaded differs from stored", l2.2) else
  let d1 := sto.delete l2.2 key
  match d1.1 with
  | some e => .error ("Delete failed: " ++ e, d1.2)
  | none =>
  let e3 := sto.existsKey d1.2 key
  if e3.1 then .error ("Deleted key still exists", e3.2) else .ok e3.2

/-- `testStorageSingleKey` (`suite.go` lines 107–160): `Lock` with its error
discarded (line 111), the assertion body, then the deferred `Unlock` with its
error discarded (line 112) — run on both the success and the `Fatalf` path,
as Go runs deferred calls during `runtime.Goexit`. -/
def testStorageSingleKey {σ : Type} (sto : Storage σ) (s : σ) (key : String) :
    Option String × σ :=
  let s1 := (sto.lock s key).2
  match singleKeyBody sto s1 key with
  | .ok s2 => (none, (sto.unlock s2 key).2)
  | .error (msg, s2) => (some msg, (sto.unlock s2 key).2)

/-- The three keys stored (and tracked in `randKeys`) by `testStorageDir`
(`suite.go` lines 166–170). -/
def dirTrackedKeys (dir : String) : List String :=
  [dir ++ "/k1", dir ++ "/k/a/b", dir ++ "/k/c"]

/-- `testStorageDir` lines 173–179: before any store, `List(k1, true)` and
`List(k2, false)` must both fail. -/
def dirPreStore {σ : Type} (sto : Storage σ) (s : σ) (dir : String) :
    Except (String × σ) σ :=
  let r1 := sto.list s (dir ++ "/k1") true
  match r1.1 with
  | .ok _ => .error ("List k1 true should fail: the key does not exist", r1.2)
  | .error _ =>
  let r2 := sto.list r1.2 (dir ++ "/k/a/b") false
  match r2.1 with
  | .ok _ => .error ("List k2 false should fail: the key does not exist", r2.2)
  | .error _ => .ok r2.2

/-- `testStorageDir` lines 181–189: the three stores, each of which must
succeed; the stored value is `[]byte(dir)`. -/
def dirStores {σ : Type} (sto : Storage σ) (s : σ) (dir : String) :
    Except (String × σ) σ :=
  let w1 := sto.store s (dir ++ "/k1") (some (strBytes dir))
  match w1.1 with
  | some e => .error ("Store k1 failed: " ++ e, w1.2)
  | none =>
  let w2 := sto.store w1.2 (dir ++ "/k/a/b") (some (strBytes dir))
  match w2.1 with
  | some e => .error ("Store k2 failed: " ++ e, w2.2)
  | none =>
  let w3 := sto.store w2.2 (dir ++ "/k/c") (some (strBytes dir))
  match w3.1 with
  | some e => .error ("Store k3 failed: " ++ e, w3.2)
  | none => .ok w3.2

/-- `testStorageDir` lines 191–235: the post-store assertions — `Stat(dir)`
non-terminal with exact key echo, `Stat(dir/k/a/b)` terminal with exact key
echo, and the two `List` results which, once sorted, must equal the expected
lists exactly (`%#v` formatting of string slices is injective, so comparing
formatted strings in Go equals comparing the lists). -/
def dirPost {σ : Type} (sto : Storage σ) (s : σ) (dir : String) :
    Except (String × σ) σ :=
  let t1 := sto.stat s dir
  match t1.1 with
  | .error e => .error ("Stat dir failed: " ++ e, t1.2)
  | .ok inf =>
  if inf.key ≠ dir then .error ("Stat dir failed: Key is wrong", t1.2) else
  if inf.isTerminal then
    .error ("Stat dir failed: IsTerminal should be false for directory keys", t1.2) else
  let t2 := sto.stat t1.2 (dir ++ "/k/a/b")
  match t2.1 with
  | .error e => .error ("Stat k2 failed: " ++ e, t2.2)
  | .ok inf2 =>
  if inf2.key ≠ dir ++ "/k/a/b" then .error ("Stat k2 failed: Key is wrong", t2.2) else
  if !inf2.isTerminal then
    .error ("Stat k2 failed: IsTerminal should be true for non-directory keys", t2.2) else
  let r1 := sto.list t2.2 dir false
  match r1.1 with
  | .error e => .error ("List dir false failed: " ++ e, r1.2)
  | .ok ls1 =>
  if sortStrings ls1 ≠ [dir ++ "/k", dir ++ "/k1"] then
    .error ("List dir false failed: wrong result", r1.2) else
  let r2 := sto.list r1.2 dir true
  match r2.1 with
  | .error e => .error ("List dir true failed: " ++ e, r2.2)
  | .ok ls2 =>
  if sortStrings ls2 ≠
      [dir ++ "/k", dir ++ "/k/a", dir ++ "/k/a/b", dir ++ "/k/c", dir ++ "/k1"] then
    .error ("List dir true failed: wrong result", r2.2)
  else .ok r2.2

/-- `testStorageDir` (`suite.go` lines 162–236) given the already generated
`dir` key: the pre-store `List` checks, the three stores, then the post-store
assertions.  (The append to `randKeys` at lines 169–171 happens before any of
these and is modelled at the `Run` level.) -/
def testStorageDir {σ : Type} (sto : Storage σ) (s : σ) (dir : String) :
    Option String × σ :=
  match dirPreStore sto s dir with
  | .error (e, s1) => (some e, s1)
  | .ok s1 =>
    match dirStores sto s1 dir with
    | .error (e, s2) => (some e, s2)
    | .ok s2 =>
      match dirPost sto s2 dir with
      | .error (e, s3) => (some e, s3)
      | .ok s3 => (none, s3)

/-- The body of `Run` (`suite.go` lines 64–66): the three check groups in
sequence, where a `Fatalf` (verdict `some _`) aborts the remaining groups.
Returns the verdict, the final storage state, and the contents of
`ts.randKeys` — which is appended to only at `suite.go` lines 169–171, with
the three `dirTrackedKeys`, before `testStorageDir`'s assertions run. -/
def suiteBodyExec {σ : Type} (sto : Storage σ) (rng : RngStream) (s : σ) :
    Option String × σ × List String :=
  match testLockerExec sto rng s with
  | (some e, s1) => (some e, s1, [])
  | (none, s1) =>
    match testStorageSingleKey sto s1 (randKey rng 6) with
    | (some e, s2) => (some e, s2, [])
    | (none, s2) =>
      let dir := randKey rng 7
      let r := testStorageDir sto s2 dir
      (r.1, r.2, dirTrackedKeys dir)

/-- The `t.Cleanup` teardown (`suite.go` lines 56–63): delete every key in
`randKeys`, discarding each `Delete` error. -/
def suiteCleanup {σ : Type} (sto : Storage σ) (s : σ) (keys : List String) : σ :=
  keys.foldl (fun st k => (sto.delete st k).2) s

/-- `Run` (`suite.go` lines 55–67) including its registered teardown, which Go
executes whether or not the test failed: verdict, storage state after the
teardown deletions, and the tracked `randKeys`. -/
def suiteRun {σ : Type} (sto : Storage σ) (rng : RngStream) (s : σ) :
    Option String × σ × List String :=
  match suiteBodyExec sto rng s with
  | (e, s1, tracked) => (e, suiteCleanup sto s1 tracked, tracked)

/-- Every key name generated from the random stream during a complete run, in
generation order: the unprefixed locking key (`suite.go` line 70), the five
stress keys (line 95), the single-key lifecycle key (line 108), and the
hierarchical `dir` key (line 164). -/
def suiteGeneratedKeys (rng : RngStream) : List String :=
  lockerFirstKey rng ::
    ((List.range lockerStressKeyCount).map fun i => randKey rng (1 + i)) ++
      [randKey rng 6, randKey rng 7]

/-- Modelled from the spec: Go's `math/rand` source is a deterministic
pseudorandom generator that is a pure function of its seed ("key names are
generated from a fixed-seed pseudorandom source so that failures are
reproducible across runs").  The exact stdlib recurrence is outside this
repository; any fixed pure recurrence in the seed captures the property the
suite relies on.  Here: a 64-bit linear congruence iterated from the seed. -/
def randSource (seed : Nat) : RngStream := fun n =>
  Nat.rec (motive := fun _ => Nat)
    ((seed * 6364136223846793005 + 1442695040888963407) % (2 ^ 64))
    (fun _ prev => (prev * 6364136223846793005 + 1442695040888963407) % (2 ^ 64))
    n

/-- The `Suite` struct (`suite.go` lines 42–48): the storage under test and
the random stream; the `randKeys`/`mu` bookkeeping lives in the run model. -/
structure Suite (σ : Type) where
  S : Storage σ
  rngStream : RngStream

/-- `NewTestSuite` (`suite.go` lines 244–249): a suite over `s` whose
generator is `rand.New(rand.NewSource(0))` — the fixed seed 0. -/
def NewTestSuite {σ : Type} (s : Storage σ) : Suite σ :=
  { S := s, rngStream := randSource 0 }

/-- The `i`-th key a suite's `randKey` produces. -/
def suiteKeyAt {σ : Type} (ts : Suite σ) (i : Nat) : String :=
  randKey ts.rngStream i

/-- State of the in-memory reference storage: the explicitly stored
(terminal) keys with their values, and the currently held locks. -/
structure MemState where
  terminals : List (String × Bytes)
  locks : List String
deriving DecidableEq, Repr

/-- Association-list lookup among the stored terminal keys. -/
def memLookup : List (String × Bytes) → String → Option Bytes
  | [], _ => none
  | (k, v) :: rest, key => if k = key then some v else memLookup rest key

/-- `k` exists as an implied directory: some terminal key lies strictly
below it. -/
def memIsDir (m : MemState) (k : String) : Bool :=
  m.terminals.any fun kv => strHasPrefix (k ++ "/") kv.1

/-- Split a character list at `/` separators. -/
def splitSlash : List Char → List (List Char)
  | [] => [[]]
  | c :: cs =>
    if c = '/' then [] :: splitSlash cs
    else
      match splitSlash cs with
      | [] => [[c]]
      | h :: t => (c :: h) :: t

/-- Join segments with `/` separators. -/
def joinSlash : List (List Char) → List Char
  | [] => []
  | [x] => x
  | x :: xs => x ++ '/' :: joinSlash xs

/-- All keys strictly below `k` on the path down to terminal `t` (assuming
`k ++ "/"` is a prefix of `t`): the intermediate directory keys and `t`
itself, as full key paths. -/
def keysUnder (k t : String) : List String :=
  let segs := splitSlash (t.data.drop (k.data.length + 1))
  (List.range segs.length).map fun j =>
    ⟨k.data ++ '/' :: joinSlash (segs.take (j + 1))⟩

/-- The immediate child of `k` on the path to terminal `t`, as a full key
path (first segment of the remainder). -/
def childKey (k t : String) : String :=
  ⟨k.data ++ '/' :: (t.data.drop (k.data.length + 1)).takeWhile (fun c => c ≠ '/')⟩

/-- The empty in-memory state. -/
def memInit : MemState := { terminals := [], locks := [] }

/-- Modelled from the spec: the "reference in-memory implementation, for
testing the Verifier itself" (spec §2) is not under `src/`; this implements
the contract of spec §4.1 — hierarchical keys with implied directories,
`nil` values stored as empty sequences, `NotFound` failures, prefix listing
in immediate-children and transitive modes, and named advisory locks whose
`Unlock` fails when the key is not held. -/
def memStorage : Storage MemState where
  existsKey := fun m k => ((memLookup m.terminals k).isSome || memIsDir m k, m)
  store := fun m k v =>
    if k = "" then (some "key is empty", m)
    else (none, { m with terminals :=
      (k, v.getD []) :: m.terminals.filter fun kv => kv.1 ≠ k })
  load := fun m k =>
    (match memLookup m.terminals k with
     | some v => .ok v
     | none => .error "key does not exist", m)
  delete := fun m k =>
    if (memLookup m.terminals k).isSome then
      (none, { m with terminals := m.terminals.filter fun kv => kv.1 ≠ k })
    else (some "key does not exist", m)
  stat := fun m k =>
    (if (memLookup m.terminals k).isSome then .ok ⟨k, true⟩
     else if memIsDir m k then .ok ⟨k, false⟩
     else .error "key does not exist", m)
  list := fun m k recursive =>
    (if memIsDir m k then
      let under := m.terminals.filter fun kv => strHasPrefix (k ++ "/") kv.1
      if recursive then .ok (under.flatMap fun kv => keysUnder k kv.1).dedup
      else .ok (under.map fun kv => childKey k kv.1).dedup
     else .error "key does not exist", m)
  lock := fun m k =>
    if k ∈ m.locks then (some "lock timeout", m)
    else (none, { m with locks := k :: m.locks })
  unlock := fun m k =>
    if k ∈ m.locks then (none, { m with locks := m.locks.filter fun x => x ≠ k })
    else (some "key is not locked", m)

/-- `memStorage` with a lenient `Stat` that never fails: a not-yet-stored key
reports a non-terminal entry instead of an error.  Every other operation is
the reference one. -/
def statLenientStorage : Storage MemState :=
  { memStorage with
    stat := fun m k =>
      (if (memLookup m.terminals k).isSome then .ok ⟨k, true⟩ else .ok ⟨k, false⟩, m) }

/-- A locker remembering only whether any key was ever locked: `Unlock` fails
on a never-locked backend and succeeds any number of times after the first
`Lock`.  Value operations are inert. -/
def everLockedStorage : Storage Bool where
  existsKey := fun b _ => (false, b)
  store := fun b _ _ => (none, b)
  load := fun b _ => (.error "no value", b)
  delete := fun b _ => (some "no value", b)
  stat := fun b _ => (.error "no value", b)
  list := fun b _ _ => (.error "no value", b)
  lock := fun _ _ => (none, true)
  unlock := fun b _ => (if b then none else some "key is not locked", b)

/-- C5 (amended): the locking check's sequential phase verifies, on its fresh
key K, exactly that `Unlock(K)` on the never-locked key fails and that
`Lock(K)` then `Unlock(K)` both succeed — the check passes precisely when
those three outcomes occur; it issues no second `Unlock`. -/
theorem testLockerSeq_passes_iff {σ : Type} (sto : Storage σ) (s : σ)
    (key : String) :
    (testLockerSeq sto s key).1 = none ↔
      ((sto.unlock s key).1.isSome = true ∧
       (sto.lock (sto.unlock s key).2 key).1 = none ∧
       (sto.unlock (sto.lock (sto.unlock s key).2 key).2 key).1 = none) := by
  unfold testLockerSeq
  rcases h1 : (sto.unlock s key).1 with _ | e1
  · simp [h1]
  · rcases h2 : (sto.lock (sto.unlock s key).2 key).1 with _ | e2
    · rcases h3 :
          (sto.unlock (sto.lock (sto.unlock s key).2 key).2 key).1 with _ | e3
      · simp [h1, h2, h3]
      · simp [h1, h2, h3]
    · simp [h1, h2]

/-- C5 counterexample: on a backend whose `Unlock` succeeds any number of
times once the key has ever been locked, the full locking check passes —
yet a second `Unlock` issued right after the check also succeeds.  So the
check does not verify that a second `Unlock` without an intervening `Lock`
fails. -/
theorem testLocker_passes_without_second_unlock_failing :
    (testLockerExec everLockedStorage (fun n => n) false).1 = none ∧
    (everLockedStorage.unlock (testLockerExec everLockedStorage (fun n => n) false).2
      (lockerFirstKey (fun n => n))).1 = none := by decide

/-- C6 (amended): before any store, the hierarchical check asserts only that
`List(dir/k1, true)` and `List(dir/k/a/b, false)` fail — it passes that phase
precisely when both `List` calls fail, and `Stat` is not consulted there
(replacing `stat` by any function leaves the phase unchanged). -/
theorem dirPreStore_passes_iff {σ : Type} (sto : Storage σ) (s : σ)
    (dir : String) (f : σ → String → Except String KeyInfo × σ) :
    dirPreStore { sto with stat := f } s dir = dirPreStore sto s dir ∧
    (isOkE (dirPreStore sto s dir) = true ↔
      (isOkE (sto.list s (dir ++ "/k1") true).1 = false ∧
       isOkE (sto.list (sto.list s (dir ++ "/k1") true).2
         (dir ++ "/k/a/b") false).1 = false)) := by
  refine ⟨rfl, ?_⟩
  unfold dirPreStore
  rcases h1 : (sto.list s (dir ++ "/k1") true).1 with e1 | v1
  · rcases h2 : (sto.list (sto.list s (dir ++ "/k1") true).2
        (dir ++ "/k/a/b") false).1 with e2 | v2
    · simp [h1, h2, isOkE]
    · simp [h1, h2, isOkE]
  · simp [h1, isOkE]

/-- C6 counterexample: on a backend whose `Stat` never fails — it returns an
error-free entry for the not-yet-created keys `dir/k1` and `dir/k/a/b`
before anything is stored — the hierarchical check nevertheless passes in
full.  So the check does not assert that `Stat` fails on not-yet-created
keys. -/
theorem dirCheck_passes_with_lenient_stat :
    isOkE (statLenientStorage.stat memInit ("__test__key__7" ++ "/k1")).1 = true ∧
    isOkE (statLenientStorage.stat memInit ("__test__key__7" ++ "/k/a/b")).1 = true ∧
    (testStorageDir statLenientStorage memInit "__test__key__7").1 = none := by
  decide

/-- C2: the single-key lifecycle check passes precisely when this assertion
sequence holds in order on the states threaded through it: `Exists` false on
the unstored key; `Load` fails; `Stat` fails; `Store` with the empty key
fails; `Store` with a nil value succeeds; `Store` with a zero-length value
succeeds; `Store` with the real value succeeds; `Exists` is then true; `Load`
returns exactly the stored bytes; `Delete` succeeds; `Exists` is false again
— any deviation at any step yields a fatal verdict. -/
theorem testStorageSingleKey_passes_iff {σ : Type} (sto : Storage σ) (s : σ)
    (key : String) :
    (testStorageSingleKey sto s key).1 = none ↔
      (let s1 := (sto.lock s key).2
       let e1 := sto.existsKey s1 key
       e1.1 = false ∧
       let l1 := sto.load e1.2 key
       isOkE l1.1 = false ∧
       let t1 := sto.stat l1.2 key
       isOkE t1.1 = false ∧
       let w0 := sto.store t1.2 "" (some [])
       w0.1.isSome = true ∧
       let w1 := sto.store w0.2 key none
       w1.1 = none ∧
       let w2 := sto.store w1.2 key (some [])
       w2.1 = none ∧
       let w3 := sto.store w2.2 key (some (strBytes key))
       w3.1 = none ∧
       let e2 := sto.existsKey w3.2 key
       e2.1 = true ∧
       let l2 := sto.load e2.2 key
       l2.1 = .ok (strBytes key) ∧
       let d1 := sto.delete l2.2 key
       d1.1 = none ∧
       (sto.existsKey d1.2 key).1 = false) := by
  unfold testStorageSingleKey singleKeyBody
  simp only []
  generalize (sto.lock s key).2 = s1
  cases h1 : (sto.existsKey s1 key).1
  case true => simp [h1]
  case false =>
  set s2 := (sto.existsKey s1 key).2 with hs2
  rcases h2 : (sto.load s2 key).1 with e2' | v2'
  case ok => simp [h1, h2, isOkE]
  case error =>
  set s3 := (sto.load s2 key).2 with hs3
  rcases h3 : (sto.stat s3 key).1 with e3' | v3'
  case ok => simp [h1, h2, h3, isOkE]
  case error =>
  set s4 := (sto.stat s3 key).2 with hs4
  rcases h4 : (sto.store s4 "" (some [])).1 with _ | e4'
  case none => simp [h1, h2, h3, h4, isOkE]
  case some =>
  set s5 := (sto.store s4 "" (some [])).2 with hs5
  rcases h5 : (sto.store s5 key none).1 with _ | e5'
  case some => simp [h1, h2, h3, h4, h5, isOkE]
  case none =>
  set s6 := (sto.store s5 key none).2 with hs6
  rcases h6 : (sto.store s6 key (some [])).1 with _ | e6'
  case some => simp [h1, h2, h3, h4, h5, h6, isOkE]
  case none =>
  set s7 := (sto.store s6 key (some [])).2 with hs7
  rcases h7 : (sto.store s7 key (some (strBytes key))).1 with _ | e7'
  case some => simp [h1, h2, h3, h4, h5, h6, h7, isOkE]
  case none =>
  set s8 := (sto.store s7 key (some (strBytes key))).2 with hs8
  cases h8 : (sto.existsKey s8 key).1
  case false => simp [h1, h2, h3, h4, h5, h6, h7, h8, isOkE]
  case true =>
  set s9 := (sto.existsKey s8 key).2 with hs9
  rcases h9 : (sto.load s9 key).1 with e9' | v9'
  case error => simp [h1, h2, h3, h4, h5, h6, h7, h8, h9, isOkE]
  case ok =>
  by_cases h9b : v9' = strBytes key
  case neg => simp [h1, h2, h3, h4, h5, h6, h7, h8, h9, h9b, isOkE]
  case pos =>
  subst h9b
  set s10 := (sto.load s9 key).2 with hs10
  rcases h10 : (sto.delete s10 key).1 with _ | e10'
  case some => simp [h1, h2, h3, h4, h5, h6, h7, h8, h9, h10, isOkE]
  case none =>
  set s11 := (sto.delete s10 key).2 with hs11
  cases h11 : (sto.existsKey s11 key).1
  case true => simp [h1, h2, h3, h4, h5, h6, h7, h8, h9, h10, h11, isOkE]
  case false => simp [h1, h2, h3, h4, h5, h6, h7, h8, h9, h10, h11, isOkE]

/-- C1: given that the pre-store `List` checks passed and the three stores of
`dir/k1`, `dir/k/a/b`, `dir/k/c` succeeded, the hierarchical check passes
precisely when: `Stat(dir)` succeeds with `Key = dir` and `IsTerminal`
false; `Stat(dir/k/a/b)` succeeds with `Key = dir/k/a/b` and `IsTerminal`
true; the sorted `List(dir, false)` equals exactly `[dir/k, dir/k1]`; and
the sorted `List(dir, true)` equals exactly
`[dir/k, dir/k/a, dir/k/a/b, dir/k/c, dir/k1]` — any other outcome of any of
these operations is a fatal failure. -/
theorem testStorageDir_passes_iff {σ : Type} (sto : Storage σ) (s s1 s2 : σ)
    (dir : String)
    (hpre : dirPreStore sto s dir = .ok s1)
    (hst : dirStores sto s1 dir = .ok s2) :
    (testStorageDir sto s dir).1 = none ↔
      (let t1 := sto.stat s2 dir
       (∃ inf, t1.1 = .ok inf ∧ inf.key = dir ∧ inf.isTerminal = false) ∧
       let t2 := sto.stat t1.2 (dir ++ "/k/a/b")
       (∃ inf2, t2.1 = .ok inf2 ∧ inf2.key = dir ++ "/k/a/b" ∧
         inf2.isTerminal = true) ∧
       let r1 := sto.list t2.2 dir false
       (∃ ls1, r1.1 = .ok ls1 ∧ sortStrings ls1 = [dir ++ "/k", dir ++ "/k1"]) ∧
       let r2 := sto.list r1.2 dir true
       (∃ ls2, r2.1 = .ok ls2 ∧ sortStrings ls2 =
         [dir ++ "/k", dir ++ "/k/a", dir ++ "/k/a/b", dir ++ "/k/c",
          dir ++ "/k1"])) := by
  unfold testStorageDir
  simp only [hpre, hst]
  unfold dirPost
  simp only []
  rcases h1 : (sto.stat s2 dir).1 with e1 | inf1
  case error => simp [h1]
  case ok =>
  by_cases h1k : inf1.key = dir
  case neg => simp [h1, h1k]
  case pos =>
  cases h1t : inf1.isTerminal
  case true => simp [h1, h1k, h1t]
  case false =>
  set s3 := (sto.stat s2 dir).2 with hs3
  rcases h2 : (sto.stat s3 (dir ++ "/k/a/b")).1 with e2 | inf2
  case error => simp [h1, h1k, h1t, h2]
  case ok =>
  by_cases h2k : inf2.key = dir ++ "/k/a/b"
  case neg => simp [h1, h1k, h1t, h2, h2k]
  case pos =>
  cases h2t : inf2.isTerminal
  case false => simp [h1, h1k, h1t, h2, h2k, h2t]
  case true =>
  set s4 := (sto.stat s3 (dir ++ "/k/a/b")).2 with hs4
  rcases h3 : (sto.list s4 dir false).1 with e3 | ls1
  case error => simp [h1, h1k, h1t, h2, h2k, h2t, h3]
  case ok =>
  by_cases h3s : sortStrings ls1 = [dir ++ "/k", dir ++ "/k1"]
  case neg => simp [h1, h1k, h1t, h2, h2k, h2t, h3, h3s]
  case pos =>
  set s5 := (sto.list s4 dir false).2 with hs5
  rcases h4 : (sto.list s5 dir true).1 with e4 | ls2
  case error => simp [h1, h1k, h1t, h2, h2k, h2t, h3, h3s, h4]
  case ok =>
  by_cases h4s : sortStrings ls2 =
      [dir ++ "/k", dir ++ "/k/a", dir ++ "/k/a/b", dir ++ "/k/c", dir ++ "/k1"]
  case neg => simp [h1, h1k, h1t, h2, h2k, h2t, h3, h3s, h4, h4s]
  case pos => simp [h1, h1k, h1t, h2, h2k, h2t, h3, h3s, h4, h4s]

/-- The in-memory state after `testStorageDir`'s three stores under the key
prefix `__test__key__7` (stores cons in reverse order). -/
def memDirStored : MemState :=
  { terminals :=
      [("__test__key__7/k/c", strBytes "__test__key__7"),
       ("__test__key__7/k/a/b", strBytes "__test__key__7"),
       ("__test__key__7/k1", strBytes "__test__key__7")],
    locks := [] }

/-- Witness for C1: on the reference in-memory storage with
`dir = "__test__key__7"`, the hypotheses hold by computation and the
characterization applies. -/
theorem testStorageDir_passes_iff_witness :
    dirPreStore memStorage memInit "__test__key__7" = .ok memInit ∧
    dirStores memStorage memInit "__test__key__7" = .ok memDirStored ∧
    ((testStorageDir memStorage memInit "__test__key__7").1 = none ↔
      (let t1 := memStorage.stat memDirStored "__test__key__7"
       (∃ inf, t1.1 = .ok inf ∧ inf.key = "__test__key__7" ∧
         inf.isTerminal = false) ∧
       let t2 := memStorage.stat t1.2 ("__test__key__7" ++ "/k/a/b")
       (∃ inf2, t2.1 = .ok inf2 ∧ inf2.key = "__test__key__7" ++ "/k/a/b" ∧
         inf2.isTerminal = true) ∧
       let r1 := memStorage.list t2.2 "__test__key__7" false
       (∃ ls1, r1.1 = .ok ls1 ∧ sortStrings ls1 =
         ["__test__key__7" ++ "/k", "__test__key__7" ++ "/k1"]) ∧
       let r2 := memStorage.list r1.2 "__test__key__7" true
       (∃ ls2, r2.1 = .ok ls2 ∧ sortStrings ls2 =
         ["__test__key__7" ++ "/k", "__test__key__7" ++ "/k/a",
          "__test__key__7" ++ "/k/a/b", "__test__key__7" ++ "/k/c",
          "__test__key__7" ++ "/k1"]))) :=
  ⟨rfl, rfl,
    testStorageDir_passes_iff memStorage memInit memInit memDirStored
      "__test__key__7" rfl rfl⟩

/-- C3 (amended): `randKey` itself records nothing; the suite's tracked-key
list receives exactly the three hierarchical keys `dir/k1`, `dir/k/a/b`,
`dir/k/c` (appended in the hierarchical check), and at teardown `Delete` is
called on exactly those tracked keys, each error ignored. -/
theorem suiteRun_tracks_only_dir_keys {σ : Type} (sto : Storage σ)
    (rng : RngStream) (s : σ)
    (h : (suiteBodyExec sto rng s).1 = none) :
    (suiteBodyExec sto rng s).2.2 = dirTrackedKeys (randKey rng 7) ∧
    (suiteRun sto rng s).2.2 = dirTrackedKeys (randKey rng 7) ∧
    (suiteRun sto rng s).2.1 =
      suiteCleanup sto (suiteBodyExec sto rng s).2.1
        (dirTrackedKeys (randKey rng 7)) := by
  rcases hL : testLockerExec sto rng s with ⟨eL, sL⟩
  rcases hS : testStorageSingleKey sto sL (randKey rng 6) with ⟨eS, sS⟩
  rcases hD : testStorageDir sto sS (randKey rng 7) with ⟨eD, sD⟩
  unfold suiteBodyExec at h
  unfold suiteRun suiteBodyExec
  simp only [hL] at h ⊢
  cases eL with
  | some e => simp at h
  | none =>
    simp only [hS] at h ⊢
    cases eS with
    | some e => simp at h
    | none =>
      simp only [hD] at h ⊢
      exact ⟨trivial, trivial, trivial⟩

/-- C3 counterexample: on a complete, fully passing run, the single-key
lifecycle key (stream position 6) and the locking check's key are generated
by the suite but absent from the tracked-key list that teardown deletes — so
not every generated key is tracked and deleted. -/
theorem suiteRun_does_not_track_all_generated_keys :
    (suiteRun memStorage (fun n => n) memInit).1 = none ∧
    randKey (fun n => n) 6 ∈ suiteGeneratedKeys (fun n => n) ∧
    randKey (fun n => n) 6 ∉ (suiteRun memStorage (fun n => n) memInit).2.2 ∧
    lockerFirstKey (fun n => n) ∈ suiteGeneratedKeys (fun n => n) ∧
    lockerFirstKey (fun n => n) ∉ (suiteRun memStorage (fun n => n) memInit).2.2 :=
  ⟨by decide, by decide, by decide, by decide, by decide⟩

/-- Witness for C3's amended theorem: a complete run on the reference
in-memory storage, with every hypothesis discharged by computation. -/
theorem suiteRun_tracks_only_dir_keys_witness :
    (suiteBodyExec memStorage (fun n => n) memInit).1 = none ∧
    ((suiteBodyExec memStorage (fun n => n) memInit).2.2 =
        dirTrackedKeys (randKey (fun n => n) 7) ∧
      (suiteRun memStorage (fun n => n) memInit).2.2 =
        dirTrackedKeys (randKey (fun n => n) 7) ∧
      (suiteRun memStorage (fun n => n) memInit).2.1 =
        suiteCleanup memStorage
          (suiteBodyExec memStorage (fun n => n) memInit).2.1
          (dirTrackedKeys (randKey (fun n => n) 7))) :=
  ⟨by decide,
    suiteRun_tracks_only_dir_keys memStorage (fun n => n) memInit (by decide)⟩

/-- String append is left-cancellative (helper). -/
theorem string_append_right_inj {a b c : String} (h : a ++ b = a ++ c) :
    b = c := by
  have hd := congrArg String.data h
  rw [String.data_append, String.data_append] at hd
  have := List.append_cancel_left hd
  cases b; cases c; exact congrArg String.mk this

/-- C4 (amended): every key produced by `randKey` begins with `KeyPrefix`,
but the key used by the locking check's unlock-never-locked and
lock-then-unlock assertions is `strconv.Itoa(Rng.Int())` without the prefix
(shown here on the identity stream, where it is `"0"`). -/
theorem randKeys_carry_prefix_locker_key_does_not (rng : RngStream) (i : Nat) :
    strHasPrefix KeyPrefix (randKey rng i) = true ∧
    strHasPrefix KeyPrefix (lockerFirstKey (fun n => n)) = false := by
  constructor
  · unfold strHasPrefix randKey
    rw [String.data_append]
    exact List.isPrefixOf_iff_prefix.mpr (List.prefix_append _ _)
  · decide

/-- C4 counterexample: the locking check's key is among the keys the suite
generates and passes to the storage, yet it does not begin with
`KeyPrefix` — so not every generated key carries the isolating prefix. -/
theorem locking_check_key_lacks_prefix :
    lockerFirstKey (fun n => n) ∈ suiteGeneratedKeys (fun n => n) ∧
    strHasPrefix KeyPrefix (lockerFirstKey (fun n => n)) = false ∧
    (suiteGeneratedKeys (fun n => n)).all
      (fun k => strHasPrefix KeyPrefix k) = false := by decide

/-- A worker passes iff no observed iteration had a successful `Lock`
followed by a failing `Unlock` (helper, by induction on the script). -/
theorem lockerWorkerScript_eq_none_iff (l : List (Bool × Bool)) :
    lockerWorkerScript l = none ↔ ∀ p ∈ l, p.1 = true → p.2 = true := by
  induction l with
  | nil => simp [lockerWorkerScript]
  | cons p rest ih =>
    rcases p with ⟨lk, uk⟩
    cases lk <;> cases uk <;> simp [lockerWorkerScript, ih]

/-- C7: the stress check uses exactly 5 stress keys (pairwise distinct
whenever the underlying random draws are), 2 workers per key and 5
iterations per worker; and a worker's run passes precisely when no
iteration that acquired the lock failed to release it — a `Lock` error is
skipped, an `Unlock` error after a successful `Lock` is fatal. -/
theorem lockerStress_shape (rng : RngStream) (start : Nat)
    (script : Nat → Bool × Bool)
    (hd : ((List.range lockerStressKeyCount).map
        (fun i => toString (rng (start + i)))).Pairwise (· ≠ ·)) :
    (lockerStressKeys rng start).length = 5 ∧
    lockerWorkersPerKey = 2 ∧
    lockerIters = 5 ∧
    (lockerStressKeys rng start).Pairwise (· ≠ ·) ∧
    (lockerWorkerRun script = none ↔
      ∀ i < lockerIters, (script i).1 = true → (script i).2 = true) := by
  refine ⟨by simp [lockerStressKeys, lockerStressKeyCount], rfl, rfl, ?_, ?_⟩
  · unfold lockerStressKeys randKey
    rw [List.pairwise_map]
    rw [List.pairwise_map] at hd
    refine hd.imp ?_
    intro a b hab hcontra
    exact hab (string_append_right_inj hcontra)
  · unfold lockerWorkerRun
    rw [lockerWorkerScript_eq_none_iff]
    constructor
    · intro h i hi
      exact h (script i) (List.mem_map_of_mem script (List.mem_range.mpr hi))
    · intro h p hp
      rcases List.mem_map.mp hp with ⟨i, hi, rfl⟩
      exact h i (List.mem_range.mp hi)

/-- Witness for C7: concrete stream and an all-successful script. -/
theorem lockerStress_shape_witness :
    ((List.range lockerStressKeyCount).map
        (fun i => toString ((fun n => n) (1 + i)))).Pairwise (· ≠ ·) ∧
    ((lockerStressKeys (fun n => n) 1).length = 5 ∧
      lockerWorkersPerKey = 2 ∧
      lockerIters = 5 ∧
      (lockerStressKeys (fun n => n) 1).Pairwise (· ≠ ·) ∧
      (lockerWorkerRun (fun _ => (true, true)) = none ↔
        ∀ i < lockerIters, ((fun _ => (true, true)) i).1 = true →
          ((fun _ => (true, true)) i).2 = true)) :=
  ⟨by decide, lockerStress_shape (fun n => n) 1 (fun _ => (true, true)) (by decide)⟩

/-- An orchestration event of the stress phase: a `go` statement spawning
worker `workerIdx` of key `keyIdx`, or the single `wg.Wait()`. -/
inductive StressEvent where
  | spawn (keyIdx workerIdx : Nat)
  | waitAll
deriving DecidableEq, Repr

/-- The stress-phase worker identities `(key index, worker index)` in spawn
order (`suite.go` lines 94–103: outer loop over 5 keys, inner loop spawning
2 workers). -/
def stressWorkerIds : List (Nat × Nat) :=
  (List.range lockerStressKeyCount).flatMap fun k =>
    (List.range lockerWorkersPerKey).map fun w => (k, w)

/-- The orchestration sequence of `suite.go` lines 93–104: the ten `go`
statements in loop order, then the one `wg.Wait()`. -/
def lockerStressEvents : List StressEvent :=
  (stressWorkerIds.map fun p => StressEvent.spawn p.1 p.2) ++
    [StressEvent.waitAll]

/-- An event of one concrete execution of the stress phase: worker spawn,
worker beginning to run, worker finishing, and the return of `wg.Wait()`. -/
inductive RunEvent where
  | spawned (k w : Nat)
  | began (k w : Nat)
  | finished (k w : Nat)
  | waitReturned
deriving DecidableEq, Repr

/-- The orderings the code's synchronization actually imposes on an
execution trace: spawns occur in program order; each worker begins after its
spawn and finishes after it begins; and the single `wg.Wait()` returns once,
after every worker has finished.  Nothing orders one key's workers against
another key's. -/
def Admissible (tr : List RunEvent) : Prop :=
  tr.filter (fun e =>
      match e with | .spawned _ _ => true | _ => false) =
    (stressWorkerIds.map fun p => RunEvent.spawned p.1 p.2) ∧
  tr.count RunEvent.waitReturned = 1 ∧
  ∀ p ∈ stressWorkerIds,
    tr.count (RunEvent.began p.1 p.2) = 1 ∧
    tr.count (RunEvent.finished p.1 p.2) = 1 ∧
    tr.indexOf (RunEvent.spawned p.1 p.2) <
      tr.indexOf (RunEvent.began p.1 p.2) ∧
    tr.indexOf (RunEvent.began p.1 p.2) <
      tr.indexOf (RunEvent.finished p.1 p.2) ∧
    tr.indexOf (RunEvent.finished p.1 p.2) < tr.indexOf RunEvent.waitReturned

instance (tr : List RunEvent) : Decidable (Admissible tr) := by
  unfold Admissible
  exact inferInstance

/-- A trace in which all ten workers are spawned first and then run one by
one in reverse key order, so every later key's workers run to completion
before any earlier key's worker has begun. -/
def stressOverlapTrace : List RunEvent :=
  (stressWorkerIds.map fun p => RunEvent.spawned p.1 p.2) ++
    ((stressWorkerIds.reverse.flatMap fun p =>
        [RunEvent.began p.1 p.2, RunEvent.finished p.1 p.2]) ++
      [RunEvent.waitReturned])

/-- C8 counterexample: `stressOverlapTrace` satisfies every ordering the
code imposes, yet worker 0 of key 4 (a later key) begins before worker 0 of
key 0 (an earlier key) has finished — the claimed per-key barrier does not
exist. -/
theorem stress_overlapping_trace_admissible :
    Admissible stressOverlapTrace ∧
    stressOverlapTrace.indexOf (RunEvent.began 4 0) <
      stressOverlapTrace.indexOf (RunEvent.finished 0 0) := by decide

/-- C8 (amended): the stress phase has exactly one barrier — the final
`wg.Wait()`, issued after all ten `go` statements — every admissible trace
finishes all ten workers before that barrier returns, and traces where a
later key's worker begins before an earlier key's workers have finished are
admissible: there is no join between key groups. -/
theorem stress_single_barrier_after_all_spawns :
    lockerStressEvents.count StressEvent.waitAll = 1 ∧
    lockerStressEvents.getLast? = some StressEvent.waitAll ∧
    (lockerStressEvents.dropLast.all fun e =>
      match e with | StressEvent.spawn _ _ => true | _ => false) = true ∧
    (∀ tr, Admissible tr → ∀ p ∈ stressWorkerIds,
      tr.indexOf (RunEvent.finished p.1 p.2) <
        tr.indexOf RunEvent.waitReturned) ∧
    Admissible stressOverlapTrace ∧
    stressOverlapTrace.indexOf (RunEvent.began 1 0) <
      stressOverlapTrace.indexOf (RunEvent.finished 0 0) := by
  refine ⟨by decide, by decide, by decide, ?_, by decide, by decide⟩
  intro tr h p hp
  exact (h.2.2 p hp).2.2.2.2

/-- C9: `NewTestSuite` installs the explicitly constructed pseudorandom
generator seeded with the fixed seed 0, so key-name generation is
deterministic: any two suites built by `NewTestSuite`, over any storages,
generate the identical sequence of random key names. -/
theorem newTestSuite_key_stream_deterministic {σ₁ σ₂ : Type}
    (s₁ : Storage σ₁) (s₂ : Storage σ₂) :
    (NewTestSuite s₁).rngStream = randSource 0 ∧
    ∀ i, suiteKeyAt (NewTestSuite s₁) i = suiteKeyAt (NewTestSuite s₂) i :=
  ⟨rfl, fun _ => rfl⟩

/-- `sto` with only the error components of `lock` and `unlock` replaced;
their state effects are kept. -/
def withLockerErrs {σ : Type} (sto : Storage σ)
    (f g : σ → String → Option String) : Storage σ :=
  { sto with
    lock := fun s k => (f s k, (sto.lock s k).2),
    unlock := fun s k => (g s k, (sto.unlock s k).2) }

/-- C10: the single-key lifecycle check calls `Lock` before its assertions
and the deferred `Unlock` after them and ignores both calls' errors: its
entire outcome — verdict and final state — is invariant under arbitrary
replacement of the `lock`/`unlock` error components (so the assertions run
even when `Lock` fails), and its verdict is exactly the body's verdict
computed from the post-`Lock` state. -/
theorem testStorageSingleKey_ignores_lock_errors {σ : Type} (sto : Storage σ)
    (f g : σ → String → Option String) (s : σ) (key : String) :
    testStorageSingleKey (withLockerErrs sto f g) s key =
      testStorageSingleKey sto s key ∧
    (testStorageSingleKey sto s key).1 =
      (match singleKeyBody sto (sto.lock s key).2 key with
       | .ok _ => none
       | .error (msg, _) => some msg) := by
  constructor
  · rfl
  · unfold testStorageSingleKey
    rcases h : singleKeyBody sto (sto.lock s key).2 key with ⟨msg, s2⟩ | s2 <;>
      simp [h]

end CertmagicStorageTests
